import Mathlib

/-!
Verification of `pymlstate` (src/state.go): a batching state wrapper around an
external Python model delegate. The shallow embedding below translates the Go
code into pure Lean functions. Byte streams are modelled as `List Nat` (each
element a byte value), Go `int` as `Int`, Go `float64` values occurring in
diagnostic arithmetic as `ℚ`, and fallible operations return `Except Err _`.
The external delegate `pystate.Base` (a separate package; only its interface is
visible from src/state.go) is modelled from the spec: its operations fail after
termination, and the results of its `fit`/`predict`/`save`/`load` operations are
supplied as parameters (oracles) since they are produced by external Python code.
-/

namespace Pymlstate

/-- Error values surfaced by the state operations (Go `error` values),
distinguished by their source so that theorems can name the error kind. -/
inductive Err where
  /-- Error from `pystate.Base.CheckTermination` / any delegate call after
  termination ("state is terminated"). -/
  | terminated
  /-- An error value produced by a delegate (Python) call, passed through verbatim. -/
  | delegate (msg : String)
  /-- Error `fmt.Errorf("unsupported format version of State container: %v", v)` in `Load`. -/
  | unsupportedVersion (v : Nat)
  /-- Error `errors.New("size of MLParams must be greater than 0")` in `loadMLParamsAndDataV1`. -/
  | zeroParamsSize
  /-- Error `errors.New("read size is different from the size of MLParams")` in `loadMLParamsAndDataV1`. -/
  | shortRead
  /-- msgpack decode failure of the MLParams block (`dec.Decode(&saved)` error). -/
  | decodeFailed
  /-- Error `io.EOF` or a short read from `binary.Read` on the stream header fields. -/
  | eof
  /-- Failure of a data conversion (`data.AsMap`, `data.ToFloat`, path `Get`). -/
  | valueError (msg : String)
deriving DecidableEq, Repr

/-- Model of sensorbee `data.Value` (the dynamic value type): only the
constructors the code under verification inspects are distinguished. -/
inductive Value where
  | vnull
  | vbool (b : Bool)
  | vint (n : Int)
  | vfloat (q : ℚ)
  | vstr (s : String)
  | varr (xs : List Value)
  | vmap (entries : List (String × Value))

/-- Struct `MLParams` (src/state.go line 32): parameters of pymlstate. The single
field `BatchSize` carries msgpack/codec tag `batch_train_size`. Go `int` is a
64-bit signed integer, modelled as `Int`. -/
structure MLParams where
  BatchSize : Int
deriving DecidableEq, Repr

/-- Modelled from the spec: `pystate.Base`, the external delegated Model
Handle. src/state.go only uses its interface (`CheckTermination`, `Call`,
`Save`, `Load`, `Terminate`). Per the spec, it carries a monotonic
termination flag ("once `terminated` is true, every subsequent operation
fails"; "once terminated, the Model Handle is considered released and must
not be invoked again"). -/
structure Base where
  terminated : Bool
deriving DecidableEq, Repr

/-- Modelled from the spec: `pystate.Base.CheckTermination` fails with a
termination error iff the base has been terminated. -/
def Base.CheckTermination (b : Base) : Except Err Unit :=
  if b.terminated then .error .terminated else .ok ()

/-- Modelled from the spec: `pystate.Base.Call(op, args)` fails immediately if
termination has occurred (spec 4.1/4.3); otherwise it returns the external
Python result, which the embedding receives as the oracle argument `res`. -/
def Base.call (b : Base) (res : Except Err Value) : Except Err Value :=
  if b.terminated then .error .terminated else res

/-- Struct `State` (src/state.go line 23): the central entity. `bucket` is the
batch buffer (`data.Array`); a Go nil slice and an empty slice are both
modelled as `[]` (they agree on `len` and `append`). -/
structure State where
  base : Base
  params : MLParams
  bucket : List Value

/-- Outcome of `New`: the Go constructor may return a state, return an error,
or panic at runtime — `make(data.Array, 0, mlParams.BatchSize)` at
src/state.go line 50 panics when the capacity is negative, which is neither a
returned value nor a returned error, so the embedding keeps it as a distinct
outcome. -/
inductive NewResult where
  | ok (s : State)
  | error (e : Err)
  | panics (msg : String)

/-- Constructor `New` (src/state.go line 41): builds the delegate via `pystate.NewBase`
(external; its outcome is the oracle `baseRes`); on its failure returns that
error; then allocates the bucket with `make(data.Array, 0, mlParams.BatchSize)`,
which panics at runtime for a negative capacity; otherwise returns the state
with the given `mlParams` and an empty bucket. No validation of `BatchSize`
is performed anywhere. -/
def New (baseRes : Except Err Base) (mlParams : MLParams) : NewResult :=
  match baseRes with
  | .error e => .error e
  | .ok b =>
    if mlParams.BatchSize < 0 then .panics "makeslice: cap out of range"
    else .ok { base := b, params := mlParams, bucket := [] }

/-- Operation `Terminate` (src/state.go line 56): delegates to `base.Terminate` (external
outcome `baseTermRes`); on failure returns the error with the state unchanged;
on success the base is terminated (`s.base` is kept non-nil purely as the
termination marker) and the bucket is discarded (`s.bucket = nil`). -/
def Terminate (baseTermRes : Except Err Unit) (s : State) :
    Except Err Unit × State :=
  match baseTermRes with
  | .error e => (.error e, s)
  | .ok _ => (.ok (), { s with base := { terminated := true }, bucket := [] })

/-- Conversion `data.AsMap`: succeeds exactly on map values. -/
def data_AsMap : Value → Except Err (List (String × Value))
  | .vmap es => .ok es
  | _ => .error (.valueError "unsupported type conversion")

/-- Lookup `data.Map.Get` with a compiled single-key path (`lossPath` / `accPath`):
looks the key up, failing when it is absent. -/
def mapGet (es : List (String × Value)) (k : String) : Except Err Value :=
  match List.lookup k es with
  | some v => .ok v
  | none => .error (.valueError "key not found")

/-- Conversion `data.ToFloat`: numeric values convert to float (modelled exactly in `ℚ`),
other shapes fail. -/
def data_ToFloat : Value → Except Err ℚ
  | .vint n => .ok (n : ℚ)
  | .vfloat q => .ok q
  | _ => .error (.valueError "unsupported type conversion")

/-- Result of one `Write` call: the returned error value, the state after the
call, the list of batches passed to the delegate `fit` during the call
(observing invocations), and the optional diagnostic pair
`(loss/batchSize, accuracy/batchSize)` that the code logs at debug level. -/
structure WriteResult where
  res : Except Err Unit
  state : State
  fitCalls : List (List Value)
  diag : Option (ℚ × ℚ)

/-- The best-effort diagnostic extraction inlined in `Write`
(src/state.go lines 92-118): interpret the fit result as a map, fetch and
convert its `loss` and `accuracy` fields, and on success normalize both by
the batch size. Any failure yields no diagnostics (and, in `Write`, no
error). -/
def extractDiag (batchSize : Int) (m : Value) : Option (ℚ × ℚ) :=
  match data_AsMap m with
  | .error _ => none
  | .ok ret =>
    match mapGet ret "loss" with
    | .error _ => none
    | .ok l =>
      match data_ToFloat l with
      | .error _ => none
      | .ok loss =>
        match mapGet ret "accuracy" with
        | .error _ => none
        | .ok a =>
          match data_ToFloat a with
          | .error _ => none
          | .ok acc => some (loss / (batchSize : ℚ), acc / (batchSize : ℚ))

/-- Operation `Write` (src/state.go line 69): checks termination, appends the record to
the bucket, returns early while `len(bucket) < BatchSize`; otherwise calls the
delegate `fit` with the whole bucket, clears the bucket regardless of the fit
outcome, returns the fit error if any, and otherwise best-effort extracts the
`loss`/`accuracy` diagnostics (failures there never fail the call). The
delegate fit outcome is the oracle `fit`, a function of the batch passed. -/
def Write (fit : List Value → Except Err Value) (s : State) (t : Value) :
    WriteResult :=
  match s.base.CheckTermination with
  | .error e => ⟨.error e, s, [], none⟩
  | .ok _ =>
    let bucket := s.bucket ++ [t]
    if (bucket.length : Int) < s.params.BatchSize then
      ⟨.ok (), { s with bucket := bucket }, [], none⟩
    else
      let cleared : State := { s with bucket := [] }
      match s.base.call (fit bucket) with
      | .error e => ⟨.error e, cleared, [bucket], none⟩
      | .ok m => ⟨.ok (), cleared, [bucket], extractDiag s.params.BatchSize m⟩

/-- A sequence of `Write` calls: returns the final state, the concatenated
list of delegate fit invocations across the calls, and the list of per-call
results in call order. -/
def writeMany (fit : List Value → Except Err Value) (s : State) :
    List Value → State × List (List Value) × List (Except Err Unit)
  | [] => (s, [], [])
  | t :: ts =>
    let r := Write fit s t
    let rest := writeMany fit r.state ts
    (rest.1, r.fitCalls ++ rest.2.1, r.res :: rest.2.2)

/-- Operation `Fit` (src/state.go line 124): delegates the explicit bucket to the
delegate `fit` under a read lock; no termination pre-check of its own, but the
delegate call itself fails after termination. -/
def Fit (fit : List Value → Except Err Value) (s : State)
    (bucket : List Value) : Except Err Value :=
  s.base.call (fit bucket)

/-- Operation `FitMap` (src/state.go line 140): converts the `[]data.Map` argument to a
`data.Array` and delegates to the `fit` call. -/
def FitMap (fit : List Value → Except Err Value) (s : State)
    (bucket : List (List (String × Value))) : Except Err Value :=
  s.base.call (fit (bucket.map Value.vmap))

/-- Operation `Predict` (src/state.go line 153): delegates the input to the delegate
`predict` call verbatim. -/
def Predict (predict : Value → Except Err Value) (s : State)
    (dt : Value) : Except Err Value :=
  s.base.call (predict dt)

/-! ### Persistence codec

src/state.go lines 174-266. The msgpack encoding/decoding of `MLParams` is
performed by the external `github.com/ugorji/go/codec` library; the embedding
implements the msgpack wire format it uses for this struct: a fixmap whose
single entry maps the fixstr key `batch_train_size` to a signed integer in
the most compact msgpack representation (the `EncodeInt` routine of the library). The
decoder accepts the integer families and fixstr keys, starting from the Go
zero value `MLParams{0}` and skipping unknown keys, as the library does. -/

/-- Big-endian byte string of `n` on `k` bytes (most significant first). -/
def beBytes : Nat → Nat → List Nat
  | 0, _ => []
  | k + 1, n => (n / 2 ^ (8 * k) % 256) :: beBytes k n

/-- Read `k` big-endian bytes off the front of a byte list. -/
def readBE : Nat → List Nat → Option (Nat × List Nat)
  | 0, l => some (0, l)
  | _ + 1, [] => none
  | k + 1, b :: l => (readBE k l).map fun vr => (b * 2 ^ (8 * k) + vr.1, vr.2)

/-- Reinterpret a `w`-bit unsigned value as a twos-complement signed integer. -/
def twosComp (v : Nat) (w : Nat) : Int :=
  if v < 2 ^ (w - 1) then (v : Int) else (v : Int) - 2 ^ w

/-- msgpack encoding of a signed 64-bit integer in the compact form the codec
library emits: positive/negative fixint for [-32, 127], otherwise the
smallest of int16/int32/int64 for positive values and int8/int16/int32/int64
for negative values, with the payload bytes in twos complement big-endian. -/
def encodeInt (i : Int) : List Nat :=
  if 127 < i then
    if i ≤ 32767 then 0xd1 :: beBytes 2 (i % 65536).toNat
    else if i ≤ 2147483647 then 0xd2 :: beBytes 4 (i % 4294967296).toNat
    else 0xd3 :: beBytes 8 (i % 18446744073709551616).toNat
  else if -32 ≤ i then [(i % 256).toNat]
  else if -128 ≤ i then 0xd0 :: beBytes 1 (i % 256).toNat
  else if -32768 ≤ i then 0xd1 :: beBytes 2 (i % 65536).toNat
  else if -2147483648 ≤ i then 0xd2 :: beBytes 4 (i % 4294967296).toNat
  else 0xd3 :: beBytes 8 (i % 18446744073709551616).toNat

/-- msgpack decoding of an integer: positive/negative fixint, uint8-uint64
(0xcc-0xcf), int8-int64 (0xd0-0xd3). Returns the value and the rest of the
input. -/
def decodeInt : List Nat → Option (Int × List Nat)
  | [] => none
  | b :: rest =>
    if b ≤ 0x7f then some ((b : Int), rest)
    else if 0xe0 ≤ b ∧ b ≤ 0xff then some ((b : Int) - 256, rest)
    else if b = 0xcc then (readBE 1 rest).map fun vr => ((vr.1 : Int), vr.2)
    else if b = 0xcd then (readBE 2 rest).map fun vr => ((vr.1 : Int), vr.2)
    else if b = 0xce then (readBE 4 rest).map fun vr => ((vr.1 : Int), vr.2)
    else if b = 0xcf then (readBE 8 rest).map fun vr => ((vr.1 : Int), vr.2)
    else if b = 0xd0 then (readBE 1 rest).map fun vr => (twosComp vr.1 8, vr.2)
    else if b = 0xd1 then (readBE 2 rest).map fun vr => (twosComp vr.1 16, vr.2)
    else if b = 0xd2 then (readBE 4 rest).map fun vr => (twosComp vr.1 32, vr.2)
    else if b = 0xd3 then (readBE 8 rest).map fun vr => (twosComp vr.1 64, vr.2)
    else none

/-- msgpack decoding of a fixstr (0xa0-0xbf): returns the raw string bytes and
the rest of the input. -/
def decodeStr : List Nat → Option (List Nat × List Nat)
  | [] => none
  | b :: rest =>
    if 0xa0 ≤ b ∧ b ≤ 0xbf then
      if rest.length < b - 0xa0 then none
      else some (rest.take (b - 0xa0), rest.drop (b - 0xa0))
    else none

/-- Skip one msgpack value (of the shapes this decoder understands). -/
def skipValue (l : List Nat) : Option (List Nat) :=
  match decodeInt l with
  | some vr => some vr.2
  | none =>
    match decodeStr l with
    | some sr => some sr.2
    | none => none

/-- The field tag of `MLParams.BatchSize`: the bytes of `batch_train_size`. -/
def batchTrainSizeKey : List Nat :=
  [98, 97, 116, 99, 104, 95, 116, 114, 97, 105, 110, 95, 115, 105, 122, 101]

/-- Decode `n` msgpack map entries into an `MLParams` accumulator: the
`batch_train_size` key sets `BatchSize`, unknown keys are skipped. -/
def decodeFields : Nat → List Nat → MLParams → Option MLParams
  | 0, _, p => some p
  | n + 1, l, p =>
    match decodeStr l with
    | none => none
    | some kr =>
      if kr.1 = batchTrainSizeKey then
        match decodeInt kr.2 with
        | none => none
        | some vr => decodeFields n vr.2 { BatchSize := vr.1 }
      else
        match skipValue kr.2 with
        | none => none
        | some r2 => decodeFields n r2 p

/-- msgpack decoding of `MLParams` (`dec.Decode(&saved)`): a fixmap whose
entries are applied over the Go zero value `MLParams{BatchSize: 0}`; any
other top-level shape fails. Trailing bytes after the map are ignored, as
the byte decoder of the library ignores them. -/
def decodeMLParams : List Nat → Option MLParams
  | [] => none
  | b :: rest =>
    if 0x80 ≤ b ∧ b ≤ 0x8f then decodeFields (b - 0x80) rest { BatchSize := 0 }
    else none

/-- msgpack encoding of `MLParams` (`enc.Encode(&s.params)`): a one-entry
fixmap `0x81`, the 16-byte fixstr key `batch_train_size` (header `0xb0`),
then the compactly encoded integer. -/
def encodeMLParams (p : MLParams) : List Nat :=
  0x81 :: 0xb0 :: batchTrainSizeKey ++ encodeInt p.BatchSize

/-- Constant `pyMLStateFormatVersion` (src/state.go line 175). -/
def pyMLStateFormatVersion : Nat := 1

/-- Little-endian 4-byte encoding of a `uint32` (`binary.Write` with
`binary.LittleEndian` of `dataSize`). -/
def uint32LE (n : Nat) : List Nat :=
  [n % 256, n / 256 % 256, n / 65536 % 256, n / 16777216 % 256]

/-- Little-endian read of a 4-byte `uint32` from the first four bytes. -/
def readUInt32LE (l : List Nat) : Nat :=
  l.getD 0 0 + 256 * l.getD 1 0 + 65536 * l.getD 2 0 + 16777216 * l.getD 3 0

/-- Helper `saveState` (src/state.go line 178): the bytes written to the stream for
the header of the state itself: the 1-byte format version, the 4-byte little-endian
length of the msgpack-encoded `MLParams`, then those bytes. (In the byte-list
writer model, writes cannot fail and are never short.) -/
def saveState (s : State) : List Nat :=
  pyMLStateFormatVersion ::
    uint32LE (encodeMLParams s.params).length ++ encodeMLParams s.params

/-- Operation `Save` (src/state.go line 161): checks termination, writes the header via
`saveState`, then delegates to `base.Save`, whose externally produced payload
bytes (or failure) are the oracle `baseSave`. Returns the full byte stream
written. -/
def Save (baseSave : Except Err (List Nat)) (s : State) :
    Except Err (List Nat) :=
  match s.base.CheckTermination with
  | .error e => .error e
  | .ok _ =>
    match baseSave with
    | .error e => .error e
    | .ok payload => .ok (saveState s ++ payload)

/-- Helper `loadMLParamsAndDataV1` (src/state.go line 235): reads the 4-byte length
prefix (`binary.Read`, failing on a short stream), rejects a zero length,
reads that many bytes (`r.Read` returns `io.EOF` on an exhausted stream and a
short count on a partial one, which the code rejects), msgpack-decodes them
into `MLParams`, delegates the remaining stream to `base.Load` (oracle
`baseLoad`, a function of the bytes handed over), and only on its success
stores the decoded parameters. Returns the result, the state after the call,
and the stream passed to the delegate (`none` when delegation was never
reached). -/
def loadMLParamsAndDataV1 (baseLoad : List Nat → Except Err Unit) (s : State)
    (r : List Nat) : Except Err Unit × State × Option (List Nat) :=
  if r.length < 4 then (.error .eof, s, none)
  else if readUInt32LE (r.take 4) = 0 then (.error .zeroParamsSize, s, none)
  else if (r.drop 4).length = 0 then (.error .eof, s, none)
  else if ((r.drop 4).take (readUInt32LE (r.take 4))).length ≠ readUInt32LE (r.take 4) then
    (.error .shortRead, s, none)
  else
    match decodeMLParams ((r.drop 4).take (readUInt32LE (r.take 4))) with
    | none => (.error .decodeFailed, s, none)
    | some saved =>
      match baseLoad ((r.drop 4).drop (readUInt32LE (r.take 4))) with
      | .error e => (.error e, s, some ((r.drop 4).drop (readUInt32LE (r.take 4))))
      | .ok _ =>
        (.ok (), { s with params := saved },
         some ((r.drop 4).drop (readUInt32LE (r.take 4))))

/-- Operation `Load` (src/state.go line 213): checks termination, reads the 1-byte
format version (`binary.Read`, failing with `io.EOF` on an empty stream), and
dispatches: version 1 goes to `loadMLParamsAndDataV1`, any other version
fails with an error naming the version, leaving the state untouched. -/
def Load (baseLoad : List Nat → Except Err Unit) (s : State) (r : List Nat) :
    Except Err Unit × State × Option (List Nat) :=
  match s.base.CheckTermination with
  | .error e => (.error e, s, none)
  | .ok _ =>
    match r with
    | [] => (.error .eof, s, none)
    | v :: rest =>
      if v = 1 then loadMLParamsAndDataV1 baseLoad s rest
      else (.error (.unsupportedVersion v), s, none)

/-! ### Helper lemmas -/

/-- Lemma: `CheckTermination` succeeds on a live base. -/
theorem checkTermination_ok (b : Base) (h : b.terminated = false) :
    b.CheckTermination = .ok () := by
  simp [Base.CheckTermination, h]

/-- Lemma: `CheckTermination` fails on a terminated base. -/
theorem checkTermination_err (b : Base) (h : b.terminated = true) :
    b.CheckTermination = .error .terminated := by
  simp [Base.CheckTermination, h]

/-- Evaluation of `Write` on a terminated state: the termination error, no effect, no fit
call. -/
theorem Write_terminated (fit : List Value → Except Err Value) (s : State)
    (t : Value) (h : s.base.terminated = true) :
    Write fit s t = ⟨.error .terminated, s, [], none⟩ := by
  unfold Write
  rw [checkTermination_err s.base h]

/-- Evaluation of `Write` below the batch threshold: appends and returns, no fit call. -/
theorem Write_append (fit : List Value → Except Err Value) (s : State)
    (t : Value) (hterm : s.base.terminated = false)
    (hlt : (s.bucket.length : Int) + 1 < s.params.BatchSize) :
    Write fit s t = ⟨.ok (), { s with bucket := s.bucket ++ [t] }, [], none⟩ := by
  unfold Write
  rw [checkTermination_ok s.base hterm]
  rw [if_pos (by simpa using hlt)]

/-- Evaluation of `Write` at the batch threshold: flushes the filled bucket through the
delegate fit, clearing the bucket either way. -/
theorem Write_flush (fit : List Value → Except Err Value) (s : State)
    (t : Value) (hterm : s.base.terminated = false)
    (hfill : s.params.BatchSize ≤ (s.bucket.length : Int) + 1) :
    Write fit s t =
      match fit (s.bucket ++ [t]) with
      | .error e => ⟨.error e, { s with bucket := [] }, [s.bucket ++ [t]], none⟩
      | .ok m => ⟨.ok (), { s with bucket := [] }, [s.bucket ++ [t]],
          extractDiag s.params.BatchSize m⟩ := by
  unfold Write
  rw [checkTermination_ok s.base hterm]
  rw [if_neg (by simp; omega)]
  cases hf : fit (s.bucket ++ [t]) <;> simp [Base.call, hterm, hf]

/-- Lemma: `Write` never changes the configuration or the termination flag. -/
theorem Write_params_base (fit : List Value → Except Err Value) (s : State)
    (t : Value) :
    (Write fit s t).state.params = s.params ∧
    (Write fit s t).state.base = s.base := by
  unfold Write
  cases hc : s.base.CheckTermination with
  | error e => exact ⟨rfl, rfl⟩
  | ok u =>
    dsimp only
    split
    · exact ⟨rfl, rfl⟩
    · cases s.base.call (fit (s.bucket ++ [t])) <;> exact ⟨rfl, rfl⟩

/-- Unfolding equation for `writeMany` on a nonempty call sequence. -/
theorem writeMany_cons (fit : List Value → Except Err Value) (s : State)
    (t : Value) (ts : List Value) :
    writeMany fit s (t :: ts) =
      ((writeMany fit (Write fit s t).state ts).1,
       (Write fit s t).fitCalls ++ (writeMany fit (Write fit s t).state ts).2.1,
       (Write fit s t).res :: (writeMany fit (Write fit s t).state ts).2.2) := rfl

/-- Lemma: `writeMany` never changes the configuration or the termination flag. -/
theorem writeMany_params_base (fit : List Value → Except Err Value) (s : State)
    (ts : List Value) :
    (writeMany fit s ts).1.params = s.params ∧
    (writeMany fit s ts).1.base = s.base := by
  induction ts generalizing s with
  | nil => exact ⟨rfl, rfl⟩
  | cons t ts ih =>
    simp only [writeMany]
    obtain ⟨hp, hb⟩ := Write_params_base fit s t
    obtain ⟨hp2, hb2⟩ := ih (Write fit s t).state
    exact ⟨hp2.trans hp, hb2.trans hb⟩

/-- One `Write` call preserves the buffer-length invariant
`len(bucket) < BatchSize`. -/
theorem Write_bucket_lt (fit : List Value → Except Err Value) (s : State)
    (t : Value) (h : (s.bucket.length : Int) < s.params.BatchSize) :
    ((Write fit s t).state.bucket.length : Int) < s.params.BatchSize := by
  by_cases hterm : s.base.terminated = true
  · rw [Write_terminated fit s t hterm]
    exact h
  · have hterm2 : s.base.terminated = false := by
      simpa using hterm
    by_cases hlt : (s.bucket.length : Int) + 1 < s.params.BatchSize
    · rw [Write_append fit s t hterm2 hlt]
      simpa using hlt
    · rw [Write_flush fit s t hterm2 (by omega)]
      cases hf : fit (s.bucket ++ [t]) <;> simp <;> omega

/-- Any sequence of `Write` calls preserves the buffer-length invariant. -/
theorem writeMany_bucket_lt (fit : List Value → Except Err Value) (s : State)
    (ts : List Value) (h : (s.bucket.length : Int) < s.params.BatchSize) :
    ((writeMany fit s ts).1.bucket.length : Int) < s.params.BatchSize := by
  induction ts generalizing s with
  | nil => exact h
  | cons t ts ih =>
    simp only [writeMany]
    have hp := (Write_params_base fit s t).1
    have h2 := Write_bucket_lt fit s t h
    have h3 := ih (Write fit s t).state (by rw [hp]; exact h2)
    rw [hp] at h3
    exact h3

/-- Filling the batch exactly: starting from a bucket that `ts` tops up to
exactly `BatchSize` records, the whole sequence triggers exactly one delegate
fit call, receiving the bucket contents followed by `ts` in call order; when
that fit succeeds every call returns success and the final bucket is empty. -/
theorem writeMany_fill (fit : List Value → Except Err Value) (v : Value)
    (s : State) (ts : List Value)
    (hterm : s.base.terminated = false)
    (hN : (s.bucket.length : Int) + ts.length = s.params.BatchSize)
    (hne : ts ≠ [])
    (hfit : fit (s.bucket ++ ts) = .ok v) :
    (writeMany fit s ts).1 = { s with bucket := [] } ∧
    (writeMany fit s ts).2.1 = [s.bucket ++ ts] ∧
    (writeMany fit s ts).2.2 = List.replicate ts.length (Except.ok ()) := by
  induction ts generalizing s with
  | nil => exact absurd rfl hne
  | cons t ts ih =>
    cases ts with
    | nil =>
      have hfill : s.params.BatchSize ≤ (s.bucket.length : Int) + 1 := by
        simp at hN
        omega
      rw [writeMany_cons, Write_flush fit s t hterm hfill, hfit]
      simp [writeMany]
    | cons t2 ts2 =>
      have hlt : (s.bucket.length : Int) + 1 < s.params.BatchSize := by
        simp at hN
        omega
      rw [writeMany_cons, Write_append fit s t hterm hlt]
      have hassoc : (s.bucket ++ [t]) ++ (t2 :: ts2) = s.bucket ++ (t :: t2 :: ts2) := by
        simp
      obtain ⟨h1, h2, h3⟩ :=
        ih { s with bucket := s.bucket ++ [t] } hterm
          (by simp at hN ⊢; omega) (by simp) (by rw [hassoc]; exact hfit)
      dsimp only
      refine ⟨h1, ?_, ?_⟩
      · rw [List.nil_append, h2]
        simp
      · rw [h3]
        simp [List.replicate_succ]

/-! ### Claim theorems: the Write path -/

/-- C1: for every configured batchSize N ≥ 1 and every sequence of exactly N
successful Write calls starting from an empty buffer, the delegate fit
operation is invoked exactly once, receiving exactly those N records in the
order the Write calls supplied them, and the buffer length immediately after
the Nth Write returns is 0. -/
theorem write_batch_flushes_once (fit : List Value → Except Err Value)
    (v : Value) (N : Nat) (s : State) (ts : List Value)
    (hterm : s.base.terminated = false)
    (hempty : s.bucket = [])
    (hbs : s.params.BatchSize = (N : Int))
    (hN : 1 ≤ N)
    (hlen : ts.length = N)
    (hfit : fit ts = .ok v) :
    (writeMany fit s ts).2.1 = [ts] ∧
    (writeMany fit s ts).2.2 = List.replicate N (Except.ok ()) ∧
    (writeMany fit s ts).1.bucket = [] := by
  have hne : ts ≠ [] := by
    intro h
    rw [h] at hlen
    simp at hlen
    omega
  obtain ⟨h1, h2, h3⟩ := writeMany_fill fit v s ts hterm
    (by rw [hempty, hbs, hlen]; simp) hne (by rw [hempty]; simpa using hfit)
  refine ⟨?_, ?_, ?_⟩
  · rw [h2, hempty]
    simp
  · rw [h3, hlen]
  · rw [h1]

/-- C1 witness: batchSize 2, two writes, one fit call receiving both records
in order, empty buffer afterwards. -/
theorem write_batch_flushes_once_witness :
    (writeMany (fun _ => Except.ok Value.vnull)
        { base := { terminated := false }, params := { BatchSize := 2 }, bucket := [] }
        [Value.vint 1, Value.vint 2]).2.1 = [[Value.vint 1, Value.vint 2]] ∧
    (writeMany (fun _ => Except.ok Value.vnull)
        { base := { terminated := false }, params := { BatchSize := 2 }, bucket := [] }
        [Value.vint 1, Value.vint 2]).2.2 = List.replicate 2 (Except.ok ()) ∧
    (writeMany (fun _ => Except.ok Value.vnull)
        { base := { terminated := false }, params := { BatchSize := 2 }, bucket := [] }
        [Value.vint 1, Value.vint 2]).1.bucket = [] :=
  write_batch_flushes_once (fun _ => Except.ok Value.vnull) Value.vnull 2
    { base := { terminated := false }, params := { BatchSize := 2 }, bucket := [] }
    [Value.vint 1, Value.vint 2] rfl rfl (by norm_num) (by norm_num) rfl rfl

/-- C2: for every configured batchSize N ≥ 1 and every sequence of Write
calls from a state satisfying the at-rest invariant (in particular a fresh
state with an empty buffer), the buffer length observed at rest afterwards is
in the range [0, N-1]. -/
theorem write_bucket_length_range (fit : List Value → Except Err Value)
    (s : State) (ts : List Value)
    (hN : 1 ≤ s.params.BatchSize)
    (hinv : (s.bucket.length : Int) ≤ s.params.BatchSize - 1) :
    0 ≤ ((writeMany fit s ts).1.bucket.length : Int) ∧
    ((writeMany fit s ts).1.bucket.length : Int) ≤ s.params.BatchSize - 1 := by
  have h := writeMany_bucket_lt fit s ts (by omega)
  exact ⟨by omega, by omega⟩

/-- C2 witness: batchSize 2, three writes from an empty buffer leave the
buffer length within [0, 1]. -/
theorem write_bucket_length_range_witness :
    0 ≤ (((writeMany (fun _ => Except.ok Value.vnull)
        { base := { terminated := false }, params := { BatchSize := 2 }, bucket := [] }
        [Value.vint 1, Value.vint 2, Value.vint 3]).1.bucket.length : Int)) ∧
    (((writeMany (fun _ => Except.ok Value.vnull)
        { base := { terminated := false }, params := { BatchSize := 2 }, bucket := [] }
        [Value.vint 1, Value.vint 2, Value.vint 3]).1.bucket.length : Int)) ≤ 2 - 1 :=
  write_bucket_length_range (fun _ => Except.ok Value.vnull)
    { base := { terminated := false }, params := { BatchSize := 2 }, bucket := [] }
    [Value.vint 1, Value.vint 2, Value.vint 3] (by norm_num) (by norm_num)

/-- C7: when a Write call fills the batch and the delegated fit call fails,
the buffer is still truncated to zero length (the records are dropped, not
requeued) and the fit error is returned to the caller rather than
swallowed. -/
theorem write_fit_failure_clears_and_surfaces
    (fit : List Value → Except Err Value) (s : State) (t : Value) (e : Err)
    (hterm : s.base.terminated = false)
    (hfill : s.params.BatchSize ≤ (s.bucket.length : Int) + 1)
    (hfit : fit (s.bucket ++ [t]) = .error e) :
    (Write fit s t).res = .error e ∧ (Write fit s t).state.bucket = [] := by
  rw [Write_flush fit s t hterm hfill, hfit]
  exact ⟨rfl, rfl⟩

/-- C7 witness: batchSize 2, second write triggers a failing fit; the error
surfaces and the bucket is empty. -/
theorem write_fit_failure_clears_and_surfaces_witness :
    (Write (fun _ => Except.error (Err.delegate "fit failed"))
        { base := { terminated := false }, params := { BatchSize := 2 },
          bucket := [Value.vint 1] } (Value.vint 2)).res =
      Except.error (Err.delegate "fit failed") ∧
    (Write (fun _ => Except.error (Err.delegate "fit failed"))
        { base := { terminated := false }, params := { BatchSize := 2 },
          bucket := [Value.vint 1] } (Value.vint 2)).state.bucket = [] :=
  write_fit_failure_clears_and_surfaces
    (fun _ => Except.error (Err.delegate "fit failed"))
    { base := { terminated := false }, params := { BatchSize := 2 },
      bucket := [Value.vint 1] }
    (Value.vint 2) (Err.delegate "fit failed") rfl (by norm_num) rfl

/-- C9: for every fit result returned by a successful flush inside Write,
Write returns success regardless of the shape of the result (diagnostic
extraction failures are not errors); and when the result is a map whose loss
and accuracy fields are present and numeric, the emitted diagnostic values
equal loss/batchSize and accuracy/batchSize. -/
theorem write_diag_best_effort (fit : List Value → Except Err Value)
    (s : State) (t : Value) (m : Value)
    (hterm : s.base.terminated = false)
    (hfill : s.params.BatchSize ≤ (s.bucket.length : Int) + 1)
    (hfit : fit (s.bucket ++ [t]) = .ok m) :
    (Write fit s t).res = .ok () ∧
    (∀ es l a lq aq, m = .vmap es →
      List.lookup "loss" es = some l → data_ToFloat l = .ok lq →
      List.lookup "accuracy" es = some a → data_ToFloat a = .ok aq →
      (Write fit s t).diag =
        some (lq / (s.params.BatchSize : ℚ), aq / (s.params.BatchSize : ℚ))) := by
  rw [Write_flush fit s t hterm hfill, hfit]
  refine ⟨rfl, ?_⟩
  rintro es l a lq aq rfl hl hlq ha haq
  dsimp only
  simp [extractDiag, data_AsMap, mapGet, hl, hlq, ha, haq]

/-- C9 witness: fit result map with loss 4 and accuracy 9/5 at batchSize 2
yields success and diagnostics loss=2, accuracy=9/10; a fit result of null
also yields success. -/
theorem write_diag_best_effort_witness :
    ((Write (fun _ => Except.ok (Value.vmap
        [("loss", Value.vfloat 4), ("accuracy", Value.vfloat (9 / 5))]))
        { base := { terminated := false }, params := { BatchSize := 2 },
          bucket := [Value.vint 1] } (Value.vint 2)).res = Except.ok () ∧
      (Write (fun _ => Except.ok (Value.vmap
        [("loss", Value.vfloat 4), ("accuracy", Value.vfloat (9 / 5))]))
        { base := { terminated := false }, params := { BatchSize := 2 },
          bucket := [Value.vint 1] } (Value.vint 2)).diag =
        some ((2 : ℚ), (9 : ℚ) / 10)) ∧
    (Write (fun _ => Except.ok Value.vnull)
        { base := { terminated := false }, params := { BatchSize := 2 },
          bucket := [Value.vint 1] } (Value.vint 2)).res = Except.ok () := by
  refine ⟨⟨?_, ?_⟩, ?_⟩
  · exact (write_diag_best_effort
      (fun _ => Except.ok (Value.vmap
        [("loss", Value.vfloat 4), ("accuracy", Value.vfloat (9 / 5))]))
      { base := { terminated := false }, params := { BatchSize := 2 },
        bucket := [Value.vint 1] } (Value.vint 2)
      (Value.vmap [("loss", Value.vfloat 4), ("accuracy", Value.vfloat (9 / 5))])
      rfl (by norm_num) rfl).1
  · rw [(write_diag_best_effort
      (fun _ => Except.ok (Value.vmap
        [("loss", Value.vfloat 4), ("accuracy", Value.vfloat (9 / 5))]))
      { base := { terminated := false }, params := { BatchSize := 2 },
        bucket := [Value.vint 1] } (Value.vint 2)
      (Value.vmap [("loss", Value.vfloat 4), ("accuracy", Value.vfloat (9 / 5))])
      rfl (by norm_num) rfl).2
      [("loss", Value.vfloat 4), ("accuracy", Value.vfloat (9 / 5))]
      (Value.vfloat 4) (Value.vfloat (9 / 5)) 4 (9 / 5) rfl rfl rfl rfl rfl]
    norm_num
  · exact (write_diag_best_effort (fun _ => Except.ok Value.vnull)
      { base := { terminated := false }, params := { BatchSize := 2 },
        bucket := [Value.vint 1] } (Value.vint 2) Value.vnull
      rfl (by norm_num) rfl).1

/-! ### Claim theorems: construction and termination -/

/-- C3 counterexample: with batch_train_size = 0 (non-positive) and a
successful delegate construction, `New` succeeds and produces a State — it
does not fail with a construction error, refuting the claim that creation
validates positivity of the batch size. -/
theorem new_accepts_zero_batch_size :
    New (Except.ok { terminated := false }) { BatchSize := 0 } =
      NewResult.ok { base := { terminated := false },
                     params := { BatchSize := 0 }, bucket := [] } := rfl

/-- C3 (amended): construction performs no validation of batch_train_size and
never produces a construction error for a non-positive value: with
batch_train_size = 0 and a successful delegate construction, `New` succeeds
and produces a State retaining batch size 0; with a negative
batch_train_size, `New` panics in the buffer pre-allocation rather than
returning an error; `New` returns an error exactly when the delegate
construction fails. -/
theorem new_no_batch_size_validation (b : Base) (p : MLParams) (e : Err) :
    (p.BatchSize = 0 →
      New (Except.ok b) p = .ok { base := b, params := p, bucket := [] }) ∧
    (p.BatchSize < 0 →
      New (Except.ok b) p = .panics "makeslice: cap out of range") ∧
    New (Except.error e) p = .error e := by
  refine ⟨?_, ?_, rfl⟩
  · intro h0
    simp [New, h0]
  · intro hneg
    simp [New, hneg]

/-- C3 witness: the amended claim at batch_train_size 0 (success) and -1
(runtime panic), and with a failing delegate construction. -/
theorem new_no_batch_size_validation_witness :
    New (Except.ok { terminated := false }) { BatchSize := 0 } =
      NewResult.ok { base := { terminated := false },
                     params := { BatchSize := 0 }, bucket := [] } ∧
    New (Except.ok { terminated := false }) { BatchSize := -1 } =
      NewResult.panics "makeslice: cap out of range" ∧
    New (Except.error Err.terminated) { BatchSize := 0 } =
      NewResult.error Err.terminated :=
  ⟨(new_no_batch_size_validation { terminated := false } { BatchSize := 0 }
      Err.terminated).1 rfl,
   (new_no_batch_size_validation { terminated := false } { BatchSize := -1 }
      Err.terminated).2.1 (by norm_num),
   (new_no_batch_size_validation { terminated := false } { BatchSize := 0 }
      Err.terminated).2.2⟩

/-- C4: after Terminate has succeeded, every subsequent call to Write, Fit,
FitMap, Predict, Save, or Load returns the termination error and produces no
side effect on the buffer or the configuration (Write and Load return the
state unchanged; Fit, FitMap, Predict and Save touch no state at all). -/
theorem terminated_ops_fail_without_effect (tr : Except Err Unit) (s0 s : State)
    (h : Terminate tr s0 = (Except.ok (), s))
    (fit fitm : List Value → Except Err Value) (predict : Value → Except Err Value)
    (t : Value) (bucket : List Value) (mbucket : List (List (String × Value)))
    (dt : Value) (baseSave : Except Err (List Nat))
    (baseLoad : List Nat → Except Err Unit) (r : List Nat) :
    Write fit s t = ⟨.error .terminated, s, [], none⟩ ∧
    Fit fit s bucket = .error .terminated ∧
    FitMap fitm s mbucket = .error .terminated ∧
    Predict predict s dt = .error .terminated ∧
    Save baseSave s = .error .terminated ∧
    Load baseLoad s r = (.error .terminated, s, none) := by
  have hterm : s.base.terminated = true := by
    cases tr with
    | error e => simp [Terminate] at h
    | ok u =>
      simp only [Terminate, Prod.mk.injEq] at h
      rw [← h.2]
  refine ⟨Write_terminated fit s t hterm, ?_, ?_, ?_, ?_, ?_⟩
  · simp [Fit, Base.call, hterm]
  · simp [FitMap, Base.call, hterm]
  · simp [Predict, Base.call, hterm]
  · simp [Save, checkTermination_err s.base hterm]
  · simp [Load, checkTermination_err s.base hterm]

/-- C4 witness: a concrete terminated instance rejects all six operations
with the termination error and no state change. -/
theorem terminated_ops_fail_without_effect_witness :
    Write (fun _ => Except.ok Value.vnull)
      { base := { terminated := true }, params := { BatchSize := 10 }, bucket := [] }
      Value.vnull =
      ⟨.error .terminated,
       { base := { terminated := true }, params := { BatchSize := 10 }, bucket := [] },
       [], none⟩ ∧
    Fit (fun _ => Except.ok Value.vnull)
      { base := { terminated := true }, params := { BatchSize := 10 }, bucket := [] }
      [] = .error .terminated ∧
    FitMap (fun _ => Except.ok Value.vnull)
      { base := { terminated := true }, params := { BatchSize := 10 }, bucket := [] }
      [] = .error .terminated ∧
    Predict (fun _ => Except.ok Value.vnull)
      { base := { terminated := true }, params := { BatchSize := 10 }, bucket := [] }
      Value.vnull = .error .terminated ∧
    Save (Except.ok [7])
      { base := { terminated := true }, params := { BatchSize := 10 }, bucket := [] } =
      .error .terminated ∧
    Load (fun _ => Except.ok ())
      { base := { terminated := true }, params := { BatchSize := 10 }, bucket := [] }
      [1, 1, 0, 0, 0, 128] =
      (.error .terminated,
       { base := { terminated := true }, params := { BatchSize := 10 }, bucket := [] },
       none) :=
  terminated_ops_fail_without_effect (Except.ok ())
    { base := { terminated := false }, params := { BatchSize := 10 }, bucket := [] }
    { base := { terminated := true }, params := { BatchSize := 10 }, bucket := [] }
    rfl (fun _ => Except.ok Value.vnull) (fun _ => Except.ok Value.vnull)
    (fun _ => Except.ok Value.vnull) Value.vnull [] [] Value.vnull
    (Except.ok [7]) (fun _ => Except.ok ()) [1, 1, 0, 0, 0, 128]

/-! ### Codec round-trip lemmas -/

theorem beBytes_length (k n : Nat) : (beBytes k n).length = k := by
  induction k generalizing n with
  | zero => rfl
  | succ k ih => simp [beBytes, ih]

/-- Reading back `k` big-endian bytes recovers the value modulo `2 ^ (8k)`. -/
theorem readBE_beBytes (k n : Nat) (t : List Nat) :
    readBE k (beBytes k n ++ t) = some (n % 2 ^ (8 * k), t) := by
  induction k with
  | zero => simp [beBytes, readBE, Nat.mod_one]
  | succ k ih =>
    have hcons : beBytes (k + 1) n ++ t =
        (n / 2 ^ (8 * k) % 256) :: (beBytes k n ++ t) := rfl
    rw [hcons]
    have hread : readBE (k + 1) ((n / 2 ^ (8 * k) % 256) :: (beBytes k n ++ t)) =
        (readBE k (beBytes k n ++ t)).map
          fun vr => (n / 2 ^ (8 * k) % 256 * 2 ^ (8 * k) + vr.1, vr.2) := rfl
    rw [hread, ih]
    simp only [Option.map_some', Option.some.injEq, Prod.mk.injEq]
    refine ⟨?_, trivial⟩
    have hpow : (2 : Nat) ^ (8 * (k + 1)) = 2 ^ (8 * k) * 256 := by
      rw [Nat.mul_succ, pow_add]
      norm_num
    rw [hpow, Nat.mod_mul]
    ring

/-- Round trip for a positive or negative fixint byte. -/
theorem decodeInt_fixint (i : Int) (t : List Nat) (h1 : -32 ≤ i) (h2 : i ≤ 127) :
    decodeInt ((i % 256).toNat :: t) = some (i, t) := by
  simp only [decodeInt]
  rcases le_or_lt 0 i with hpos | hneg
  · rw [if_pos (by omega)]
    simp only [Option.some.injEq, Prod.mk.injEq]
    exact ⟨by omega, trivial⟩
  · rw [if_neg (by omega), if_pos ⟨by omega, by omega⟩]
    simp only [Option.some.injEq, Prod.mk.injEq]
    exact ⟨by omega, trivial⟩

/-- Round trip for the int8 format. -/
theorem decodeInt_int8 (i : Int) (t : List Nat) (h1 : -128 ≤ i) (h2 : i ≤ 127) :
    decodeInt (0xd0 :: (beBytes 1 (i % 256).toNat ++ t)) = some (i, t) := by
  have hstep : decodeInt (0xd0 :: (beBytes 1 (i % 256).toNat ++ t)) =
      (readBE 1 (beBytes 1 (i % 256).toNat ++ t)).map
        fun vr => (twosComp vr.1 8, vr.2) := rfl
  rw [hstep, readBE_beBytes]
  simp only [Option.map_some', Option.some.injEq, Prod.mk.injEq]
  refine ⟨?_, trivial⟩
  unfold twosComp
  norm_num
  split_ifs with hv <;> omega

/-- Round trip for the int16 format. -/
theorem decodeInt_int16 (i : Int) (t : List Nat)
    (h1 : -32768 ≤ i) (h2 : i ≤ 32767) :
    decodeInt (0xd1 :: (beBytes 2 (i % 65536).toNat ++ t)) = some (i, t) := by
  have hstep : decodeInt (0xd1 :: (beBytes 2 (i % 65536).toNat ++ t)) =
      (readBE 2 (beBytes 2 (i % 65536).toNat ++ t)).map
        fun vr => (twosComp vr.1 16, vr.2) := rfl
  rw [hstep, readBE_beBytes]
  simp only [Option.map_some', Option.some.injEq, Prod.mk.injEq]
  refine ⟨?_, trivial⟩
  unfold twosComp
  norm_num
  split_ifs with hv <;> omega

/-- Round trip for the int32 format. -/
theorem decodeInt_int32 (i : Int) (t : List Nat)
    (h1 : -2147483648 ≤ i) (h2 : i ≤ 2147483647) :
    decodeInt (0xd2 :: (beBytes 4 (i % 4294967296).toNat ++ t)) = some (i, t) := by
  have hstep : decodeInt (0xd2 :: (beBytes 4 (i % 4294967296).toNat ++ t)) =
      (readBE 4 (beBytes 4 (i % 4294967296).toNat ++ t)).map
        fun vr => (twosComp vr.1 32, vr.2) := rfl
  rw [hstep, readBE_beBytes]
  simp only [Option.map_some', Option.some.injEq, Prod.mk.injEq]
  refine ⟨?_, trivial⟩
  unfold twosComp
  norm_num
  split_ifs with hv <;> omega

/-- Round trip for the int64 format. -/
theorem decodeInt_int64 (i : Int) (t : List Nat)
    (h1 : -9223372036854775808 ≤ i) (h2 : i ≤ 9223372036854775807) :
    decodeInt (0xd3 :: (beBytes 8 (i % 18446744073709551616).toNat ++ t)) =
      some (i, t) := by
  have hstep : decodeInt (0xd3 :: (beBytes 8 (i % 18446744073709551616).toNat ++ t)) =
      (readBE 8 (beBytes 8 (i % 18446744073709551616).toNat ++ t)).map
        fun vr => (twosComp vr.1 64, vr.2) := rfl
  rw [hstep, readBE_beBytes]
  simp only [Option.map_some', Option.some.injEq, Prod.mk.injEq]
  refine ⟨?_, trivial⟩
  unfold twosComp
  norm_num
  split_ifs with hv <;> omega

/-- The compact integer encoding decodes back to the encoded value for every
64-bit signed integer, leaving trailing bytes untouched. -/
theorem decodeInt_encodeInt (i : Int) (t : List Nat)
    (hlo : -(2 ^ 63) ≤ i) (hhi : i < 2 ^ 63) :
    decodeInt (encodeInt i ++ t) = some (i, t) := by
  unfold encodeInt
  split_ifs with h1 h2 h3 h4 h5 h6 h7
  · rw [List.cons_append]
    exact decodeInt_int16 i t (by omega) (by omega)
  · rw [List.cons_append]
    exact decodeInt_int32 i t (by omega) (by omega)
  · rw [List.cons_append]
    exact decodeInt_int64 i t (by norm_num at hlo ⊢; omega) (by norm_num at hhi ⊢; omega)
  · rw [List.singleton_append]
    exact decodeInt_fixint i t (by omega) (by omega)
  · rw [List.cons_append]
    exact decodeInt_int8 i t (by omega) (by omega)
  · rw [List.cons_append]
    exact decodeInt_int16 i t (by omega) (by omega)
  · rw [List.cons_append]
    exact decodeInt_int32 i t (by omega) (by omega)
  · rw [List.cons_append]
    exact decodeInt_int64 i t (by norm_num at hlo ⊢; omega) (by norm_num at hhi ⊢; omega)

theorem encodeInt_length_le (i : Int) : (encodeInt i).length ≤ 9 := by
  unfold encodeInt
  split_ifs <;> simp [beBytes_length]

theorem encodeMLParams_length (p : MLParams) :
    (encodeMLParams p).length = 18 + (encodeInt p.BatchSize).length := by
  simp [encodeMLParams, batchTrainSizeKey]
  omega

/-- The msgpack configuration block decodes back to the encoded parameters
for every 64-bit batch size. -/
theorem decodeFields_one (l : List Nat) (p : MLParams) :
    decodeFields 1 l p =
      match decodeStr l with
      | none => none
      | some kr =>
        if kr.1 = batchTrainSizeKey then
          match decodeInt kr.2 with
          | none => none
          | some vr => some { BatchSize := vr.1 }
        else
          match skipValue kr.2 with
          | none => none
          | some _ => some p := rfl

theorem decodeMLParams_encodeMLParams (p : MLParams)
    (hlo : -(2 ^ 63) ≤ p.BatchSize) (hhi : p.BatchSize < 2 ^ 63) :
    decodeMLParams (encodeMLParams p) = some p := by
  have hstep : decodeMLParams (encodeMLParams p) =
      decodeFields 1 (0xb0 :: (batchTrainSizeKey ++ encodeInt p.BatchSize))
        { BatchSize := 0 } := rfl
  rw [hstep, decodeFields_one]
  have hkey : decodeStr (0xb0 :: (batchTrainSizeKey ++ encodeInt p.BatchSize)) =
      some (batchTrainSizeKey, encodeInt p.BatchSize) := by
    simp only [decodeStr]
    rw [if_pos (by norm_num)]
    rw [if_neg (by simp [batchTrainSizeKey])]
    have h16 : (0xb0 - 0xa0 : Nat) = batchTrainSizeKey.length := rfl
    rw [h16, List.take_left, List.drop_left]
  rw [hkey]
  have hdec : decodeInt (encodeInt p.BatchSize) = some (p.BatchSize, []) := by
    have h := decodeInt_encodeInt p.BatchSize [] hlo hhi
    rwa [List.append_nil] at h
  dsimp only
  rw [if_pos rfl, hdec]

theorem uint32LE_length (n : Nat) : (uint32LE n).length = 4 := rfl

theorem readUInt32LE_uint32LE (n : Nat) (h : n < 4294967296) :
    readUInt32LE (uint32LE n) = n := by
  simp [uint32LE, readUInt32LE, List.getD]
  omega

theorem saveState_length (s : State) :
    (saveState s).length = 5 + (encodeMLParams s.params).length := by
  simp [saveState, uint32LE, pyMLStateFormatVersion]
  omega

/-! ### Claim theorems: persistence -/

/-- C6: round-trip — Save followed by Load on a (fresh, non-terminated)
instance reproduces batch_train_size exactly, and Load consumes precisely
5 + configLen bytes of the stream (1 version byte, 4 little-endian length
bytes, configLen configuration bytes) before delegating the remainder — the
saved delegate payload — to the Model Handle load. -/
theorem save_load_roundtrip (s s2 : State) (payload out : List Nat)
    (baseLoad : List Nat → Except Err Unit)
    (hlo : -(2 ^ 63) ≤ s.params.BatchSize) (hhi : s.params.BatchSize < 2 ^ 63)
    (hterm : s.base.terminated = false)
    (hterm2 : s2.base.terminated = false)
    (hsave : Save (Except.ok payload) s = Except.ok out)
    (hload : baseLoad payload = Except.ok ()) :
    Load baseLoad s2 out =
      (Except.ok (), { s2 with params := s.params }, some payload) ∧
    out.drop (5 + (encodeMLParams s.params).length) = payload := by
  simp only [Save, checkTermination_ok s.base hterm, Except.ok.injEq] at hsave
  subst hsave
  have hLle : (encodeMLParams s.params).length ≤ 27 := by
    rw [encodeMLParams_length]
    have h := encodeInt_length_le s.params.BatchSize
    omega
  have hL18 : 18 ≤ (encodeMLParams s.params).length := by
    rw [encodeMLParams_length]
    omega
  have hform : saveState s ++ payload =
      1 :: (uint32LE (encodeMLParams s.params).length ++
        (encodeMLParams s.params ++ payload)) := by
    simp [saveState, pyMLStateFormatVersion]
  have hload1 : Load baseLoad s2 (saveState s ++ payload) =
      loadMLParamsAndDataV1 baseLoad s2
        (uint32LE (encodeMLParams s.params).length ++
          (encodeMLParams s.params ++ payload)) := by
    rw [hform]
    simp only [Load, checkTermination_ok s2.base hterm2]
    rw [if_true]
  have htake4 : (uint32LE (encodeMLParams s.params).length ++
      (encodeMLParams s.params ++ payload)).take 4 =
      uint32LE (encodeMLParams s.params).length := by
    rw [show (4 : Nat) = (uint32LE (encodeMLParams s.params).length).length from
      (uint32LE_length _).symm]
    exact List.take_left _ _
  have hdrop4 : (uint32LE (encodeMLParams s.params).length ++
      (encodeMLParams s.params ++ payload)).drop 4 =
      encodeMLParams s.params ++ payload := by
    rw [show (4 : Nat) = (uint32LE (encodeMLParams s.params).length).length from
      (uint32LE_length _).symm]
    exact List.drop_left _ _
  have hread : readUInt32LE (uint32LE (encodeMLParams s.params).length) =
      (encodeMLParams s.params).length :=
    readUInt32LE_uint32LE _ (by omega)
  have htakeL : (encodeMLParams s.params ++ payload).take
      (encodeMLParams s.params).length = encodeMLParams s.params :=
    List.take_left _ _
  have hdropL : (encodeMLParams s.params ++ payload).drop
      (encodeMLParams s.params).length = payload :=
    List.drop_left _ _
  have hv1 : loadMLParamsAndDataV1 baseLoad s2
      (uint32LE (encodeMLParams s.params).length ++
        (encodeMLParams s.params ++ payload)) =
      (Except.ok (), { s2 with params := s.params }, some payload) := by
    have hc1 : ¬ ((uint32LE (encodeMLParams s.params).length ++
        (encodeMLParams s.params ++ payload)).length < 4) := by
      simp [uint32LE]
    have hc2 : ¬ ((encodeMLParams s.params).length = 0) := by
      omega
    have hc3 : ¬ ((encodeMLParams s.params ++ payload).length = 0) := by
      rw [List.length_append]
      omega
    have hc4 : ¬ ((encodeMLParams s.params).length ≠
        (encodeMLParams s.params).length) := by
      simp
    unfold loadMLParamsAndDataV1
    simp only [htake4, hread, hdrop4, htakeL, hdropL]
    rw [if_neg hc1, if_neg hc2, if_neg hc3, if_neg hc4]
    rw [decodeMLParams_encodeMLParams s.params hlo hhi]
    dsimp only
    rw [hload]
  refine ⟨hload1.trans hv1, ?_⟩
  rw [← saveState_length s]
  exact List.drop_left _ _

/-- C6 witness: a concrete save of batchSize 10 with payload [9, 9], loaded
into a fresh instance, restores batchSize 10 and hands exactly [9, 9] to the
delegate after 5 + configLen bytes. -/
theorem save_load_roundtrip_witness :
    Load (fun _ => Except.ok ())
      { base := { terminated := false }, params := { BatchSize := 10 }, bucket := [] }
      (saveState { base := { terminated := false }, params := { BatchSize := 10 }, bucket := [] } ++ [9, 9]) =
      (Except.ok (),
       { base := { terminated := false }, params := { BatchSize := 10 }, bucket := [] },
       some [9, 9]) ∧
    (saveState { base := { terminated := false }, params := { BatchSize := 10 }, bucket := [] } ++ [9, 9]).drop
        (5 + (encodeMLParams { BatchSize := 10 }).length) = [9, 9] :=
  save_load_roundtrip
    { base := { terminated := false }, params := { BatchSize := 10 }, bucket := [] }
    { base := { terminated := false }, params := { BatchSize := 10 }, bucket := [] }
    [9, 9]
    (saveState { base := { terminated := false }, params := { BatchSize := 10 }, bucket := [] } ++ [9, 9])
    (fun _ => Except.ok ())
    (by norm_num) (by norm_num) rfl rfl rfl rfl

/-- In the version-1 load path, every outcome either leaves the state
untouched or is a success. -/
theorem loadV1_cases (baseLoad : List Nat → Except Err Unit) (s : State)
    (r : List Nat) :
    (loadMLParamsAndDataV1 baseLoad s r).2.1 = s ∨
    (loadMLParamsAndDataV1 baseLoad s r).1 = .ok () := by
  unfold loadMLParamsAndDataV1
  split_ifs
  · exact Or.inl rfl
  · exact Or.inl rfl
  · exact Or.inl rfl
  · exact Or.inl rfl
  · split
    · exact Or.inl rfl
    · split
      · exact Or.inl rfl
      · exact Or.inr rfl

/-- C5: whenever Load returns an error — reading the version byte, the length
prefix, or the configuration block fails, the block is empty or undecodable,
the version is unsupported, or the delegate load fails — the state, and in
particular the live configuration, is unchanged: the decoded configuration is
installed only after the delegate load has succeeded. -/
theorem load_error_leaves_state_unchanged (baseLoad : List Nat → Except Err Unit)
    (s : State) (r : List Nat) (e : Err)
    (h : (Load baseLoad s r).1 = .error e) :
    (Load baseLoad s r).2.1 = s := by
  unfold Load at h ⊢
  cases hc : s.base.CheckTermination with
  | error e2 => simp [hc]
  | ok u =>
    simp only [hc] at h ⊢
    cases r with
    | nil => rfl
    | cons v rest =>
      by_cases hv : v = 1
      · simp only [hv, if_pos] at h ⊢
        rcases loadV1_cases baseLoad s rest with h2 | h2
        · exact h2
        · rw [h2] at h
          exact absurd h (by simp)
      · simp [hv]

/-- C5 witness: loading from an empty stream fails and leaves the state
unchanged. -/
theorem load_error_leaves_state_unchanged_witness :
    (Load (fun _ => Except.ok ())
      { base := { terminated := false }, params := { BatchSize := 10 }, bucket := [] }
      []).2.1 =
      { base := { terminated := false }, params := { BatchSize := 10 }, bucket := [] } :=
  load_error_leaves_state_unchanged (fun _ => Except.ok ())
    { base := { terminated := false }, params := { BatchSize := 10 }, bucket := [] }
    [] Err.eof rfl

/-- C8: for every input stream whose first byte is a format version other
than 1, Load returns an unsupported-version error naming the offending
version value, and the instance state — configuration and buffer — is left
unchanged. -/
theorem load_unsupported_version (baseLoad : List Nat → Except Err Unit)
    (s : State) (v : Nat) (rest : List Nat)
    (hterm : s.base.terminated = false) (hv : v ≠ 1) (hbyte : v < 256) :
    Load baseLoad s (v :: rest) = (.error (.unsupportedVersion v), s, none) := by
  simp [Load, checkTermination_ok s.base hterm, hv]

/-- C8 witness: version byte 2 is rejected, naming the value 2, with the
state unchanged. -/
theorem load_unsupported_version_witness :
    Load (fun _ => Except.ok ())
      { base := { terminated := false }, params := { BatchSize := 10 }, bucket := [] }
      [2, 1, 0, 0, 0, 128] =
      (.error (.unsupportedVersion 2),
       { base := { terminated := false }, params := { BatchSize := 10 }, bucket := [] },
       none) :=
  load_unsupported_version (fun _ => Except.ok ())
    { base := { terminated := false }, params := { BatchSize := 10 }, bucket := [] }
    2 [1, 0, 0, 0, 128] rfl (by norm_num) (by norm_num)

/-- C10: Load performs no positivity validation on the decoded
configuration: on the well-formed version-1 input whose one-byte
configuration block is the empty msgpack map (decoding to the zero value,
batch_train_size = 0) and whose delegate load succeeds, Load returns success
and replaces the live configuration (here batchSize 10) with the
non-positive batch size 0. -/
theorem load_accepts_zero_batch_size :
    Load (fun _ => Except.ok ())
      { base := { terminated := false }, params := { BatchSize := 10 }, bucket := [] }
      [1, 1, 0, 0, 0, 128] =
      (Except.ok (),
       { base := { terminated := false }, params := { BatchSize := 0 }, bucket := [] },
       some []) := rfl

end Pymlstate
